import Mathlib

/-!
Shallow embedding of `src/dharma/domain/repos/in_memory.py`
(`InMemoryRepository`): an in-process, class-scoped object store.

Python dicts are embedded as insertion-ordered association lists
(`List (K × V)`): updating an existing key rewrites its value in place,
a new key is appended at the end, exactly as CPython dicts behave.
Exceptions are embedded as `Except` results paired with the state at the
moment the exception escapes, because in Python the mutations performed
before a `raise` persist.
-/

namespace DharmaInMemory

/-- Lookup in an insertion-ordered association list (Python `d[k]` / `d.get(k)`). -/
def dictGet {K V : Type} [DecidableEq K] : List (K × V) → K → Option V
  | [], _ => none
  | (k0, v0) :: rest, k => if k0 = k then some v0 else dictGet rest k

/-- Write `d[k] = v`: rewrite in place if the key exists, append otherwise. -/
def dictSet {K V : Type} [DecidableEq K] : List (K × V) → K → V → List (K × V)
  | [], k, v => [(k, v)]
  | (k0, v0) :: rest, k, v =>
      if k0 = k then (k0, v) :: rest else (k0, v0) :: dictSet rest k v

/-- Remove the entry for `k` (Python `d.pop(k)` after a successful membership check). -/
def dictErase {K V : Type} [DecidableEq K] : List (K × V) → K → List (K × V)
  | [], _ => []
  | (k0, v0) :: rest, k => if k0 = k then rest else (k0, v0) :: dictErase rest k

/-- The keys of a dict, in insertion order. -/
def dictKeys {K V : Type} (m : List (K × V)) : List K := m.map (fun p => p.1)

/-- The values of a dict, in insertion order (Python `d.values()`). -/
def dictValues {K V : Type} (m : List (K × V)) : List V := m.map (fun p => p.2)

/-- A Python class, abstracted to its dotted qualname and the qualnames of its
strict ancestors; `klass.mro()` is the class itself followed by its strict
ancestors, in method-resolution order. -/
structure Klass where
  qualname : String
  ancestors : List String
  deriving DecidableEq

/-- Python `klass.mro()`: the class itself first, then its strict ancestors. -/
def Klass.mro (k : Klass) : List String := k.qualname :: k.ancestors

/-- The process-wide shared state of `InMemoryRepository`:
`_REGISTERS : {klass_qualname: {instance_id: instance}}` and
`_SUPER_KLASSES_WITH_REPO : {klass_qualname: [super, repo, qualnames]}`
(the latter a `defaultdict(list)`). -/
structure RepoState (T : Type) where
  REGISTERS : List (String × List (Int × T))
  SUPER_KLASSES_WITH_REPO : List (String × List String)
  deriving DecidableEq

/-- The payload of an exception message raised by the store. -/
inductive ExcMsg
  | noRepositoryMsg (qualname : String)
  | notFoundBuiltinIdMsg (qualname : String)
  | notFoundMsg (i : Int) (qualname : String)
  deriving DecidableEq

/-- The exceptions the embedded code can raise.  The source defines exactly one
repository exception class, `InMemoryRepository.NotFound`; `AssertionError`
comes from the `assert` in `insert`'s fan-out and `KeyError` from an uncaught
`dict[key]` miss. -/
inductive RepoExc
  | NotFound (msg : ExcMsg)
  | AssertionError (msg : String)
  | KeyError
  deriving DecidableEq

/-- The name of the Python exception class an embedded exception corresponds to. -/
def RepoExc.kindName : RepoExc → String
  | .NotFound _ => "NotFound"
  | .AssertionError _ => "AssertionError"
  | .KeyError => "KeyError"

/-- A store instance handle: the target class's qualname and the id-extraction
function (`self._klass_qualname`, `self._get_id`). -/
structure InMemoryRepository (T : Type) where
  klass_qualname : String
  get_id : T → Int

variable {T : Type}

/-- Lookup of object `i` in class `q`'s bucket of state `s`. -/
def regLookup (s : RepoState T) (q : String) (i : Int) : Option T :=
  (dictGet s.REGISTERS q).bind (fun reg => dictGet reg i)

/-- Embeds `InMemoryRepository.register_klass`: eagerly (re)creates an empty bucket
for the class's qualname. -/
def register_klass (s : RepoState T) (klass : Klass) : RepoState T :=
  { s with REGISTERS := dictSet s.REGISTERS klass.qualname [] }

/-- Embeds `InMemoryRepository._find_super_repos`: memo check, then scan `klass.mro()`
keeping the qualnames that already have a bucket in `_REGISTERS`. -/
def find_super_repos (s : RepoState T) (qualname : String) (klass : Klass) : List String :=
  match dictGet s.SUPER_KLASSES_WITH_REPO qualname with
  | some l => l
  | none => klass.mro.filter (fun q => (dictGet s.REGISTERS q).isSome)

/-- Embeds `InMemoryRepository.__init__`: computes the super-repo list if this
qualname has none yet (before creating the bucket), then creates the bucket if
missing, and returns the instance handle. -/
def construct (klass : Klass) (get_id : T → Int) (s : RepoState T) :
    InMemoryRepository T × RepoState T :=
  let qn := klass.qualname
  let s1 :=
    if (dictGet s.SUPER_KLASSES_WITH_REPO qn).isSome then s
    else { s with SUPER_KLASSES_WITH_REPO :=
            dictSet s.SUPER_KLASSES_WITH_REPO qn (find_super_repos s qn klass) }
  let s2 :=
    if (dictGet s1.REGISTERS qn).isSome then s1
    else { s1 with REGISTERS := dictSet s1.REGISTERS qn [] }
  (⟨qn, get_id⟩, s2)

/-- Embeds `InMemoryRepository.get`. -/
def InMemoryRepository.get (r : InMemoryRepository T) (i : Int) (s : RepoState T) :
    Except RepoExc T :=
  match dictGet s.REGISTERS r.klass_qualname with
  | none => .error (.NotFound (.noRepositoryMsg r.klass_qualname))
  | some reg =>
    match dictGet reg i with
    | none => .error (.NotFound (.notFoundBuiltinIdMsg r.klass_qualname))
    | some obj => .ok obj

/-- Embeds `InMemoryRepository.get_or_none`. -/
def InMemoryRepository.get_or_none (r : InMemoryRepository T) (i : Int) (s : RepoState T) :
    Except RepoExc (Option T) :=
  match dictGet s.REGISTERS r.klass_qualname with
  | none => .error (.NotFound (.noRepositoryMsg r.klass_qualname))
  | some reg => .ok (dictGet reg i)

/-- Embeds `InMemoryRepository.all`. -/
def InMemoryRepository.all (r : InMemoryRepository T) (s : RepoState T) :
    Except RepoExc (List T) :=
  match dictGet s.REGISTERS r.klass_qualname with
  | none => .error (.NotFound (.noRepositoryMsg r.klass_qualname))
  | some reg => .ok (dictValues reg)

/-- Embeds `InMemoryRepository.exists`. -/
def InMemoryRepository.exists_ (r : InMemoryRepository T) (i : Int) (s : RepoState T) :
    Except RepoExc Bool :=
  match dictGet s.REGISTERS r.klass_qualname with
  | none => .error (.NotFound (.noRepositoryMsg r.klass_qualname))
  | some reg => .ok (dictGet reg i).isSome

/-- Embeds `InMemoryRepository.filter`. -/
def InMemoryRepository.filter (r : InMemoryRepository T) (p : T → Bool) (s : RepoState T) :
    Except RepoExc (List T) :=
  match dictGet s.REGISTERS r.klass_qualname with
  | none => .error (.NotFound (.noRepositoryMsg r.klass_qualname))
  | some reg => .ok ((dictValues reg).filter p)

/-- Embeds `InMemoryRepository.count`: with no predicate, the bucket's size; with a
predicate, `len(self.filter(predicate))`. -/
def InMemoryRepository.count (r : InMemoryRepository T) (pred : Option (T → Bool))
    (s : RepoState T) : Except RepoExc Nat :=
  match pred with
  | none =>
    match dictGet s.REGISTERS r.klass_qualname with
    | none => .error (.NotFound (.noRepositoryMsg r.klass_qualname))
    | some reg => .ok reg.length
  | some p => (r.filter p s).map List.length

/-- The fan-out loop of `InMemoryRepository.insert`: for each super qualname,
`assert id_ not in self._REGISTERS[q]` (a missing bucket is an uncaught
`KeyError`; a present id is the `AssertionError`), then write the object into
that bucket. -/
def fan_out (id_ : Int) (obj : T) : List String → RepoState T →
    Except RepoExc Bool × RepoState T
  | [], s => (.ok true, s)
  | q :: rest, s =>
    match dictGet s.REGISTERS q with
    | none => (.error .KeyError, s)
    | some reg =>
      if (dictGet reg id_).isSome then
        (.error (.AssertionError "Id conflict in super repos"), s)
      else
        fan_out id_ obj rest
          { s with REGISTERS := dictSet s.REGISTERS q (dictSet reg id_ obj) }

/-- Reading `d[k]` on a `defaultdict(list)`: yields the stored list, or the
empty list while inserting it as the new entry for an absent key. -/
def defaultdict_read (m : List (String × List String)) (k : String) :
    List String × List (String × List String) :=
  match dictGet m k with
  | some l => (l, m)
  | none => ([], dictSet m k [])

/-- Embeds `InMemoryRepository.insert`: the base-class pre-check is an external
collaborator treated as an opaque no-op; then resolve the bucket (`NotFound`
with the no-repository message if absent), write `bucket[id] = obj`, and fan
out over `_SUPER_KLASSES_WITH_REPO[qualname]` (a `defaultdict` read). -/
def InMemoryRepository.insert (r : InMemoryRepository T) (obj : T) (s : RepoState T) :
    Except RepoExc Bool × RepoState T :=
  match dictGet s.REGISTERS r.klass_qualname with
  | none => (.error (.NotFound (.noRepositoryMsg r.klass_qualname)), s)
  | some reg =>
    let id_ := r.get_id obj
    let s1 : RepoState T :=
      { s with REGISTERS := dictSet s.REGISTERS r.klass_qualname (dictSet reg id_ obj) }
    let rd := defaultdict_read s1.SUPER_KLASSES_WITH_REPO r.klass_qualname
    fan_out id_ obj rd.1 { s1 with SUPER_KLASSES_WITH_REPO := rd.2 }

/-- Embeds `InMemoryRepository.update`: resolve the bucket, unconditionally overwrite
`bucket[id] = obj`; no fan-out to ancestor buckets. -/
def InMemoryRepository.update (r : InMemoryRepository T) (obj : T) (s : RepoState T) :
    Except RepoExc Bool × RepoState T :=
  match dictGet s.REGISTERS r.klass_qualname with
  | none => (.error (.NotFound (.noRepositoryMsg r.klass_qualname)), s)
  | some reg =>
    (.ok true,
     { s with REGISTERS :=
        dictSet s.REGISTERS r.klass_qualname (dictSet reg (r.get_id obj) obj) })

/-- Modelled from the spec: `error_catcher` from `dharma.utils.operators` is
missing from the sources; per the spec it is "a generic error-wrapping helper
that calls a function and converts a specified subset of failure kinds into a
per-item success/failure outcome".  It runs the action; an exception in the
caught set becomes the failure outcome `false`, any other exception
propagates. -/
def error_catcher (caught : RepoExc → Bool)
    (action : RepoState T → Except RepoExc Bool × RepoState T) (s : RepoState T) :
    Except RepoExc Bool × RepoState T :=
  match action s with
  | (.ok b, s1) => (.ok b, s1)
  | (.error e, s1) => if caught e then (.ok false, s1) else (.error e, s1)

/-- The `error_classes` tuple of `batch_update`:
`(AssertionError, self.NotFound)`. -/
def error_classes : RepoExc → Bool
  | .NotFound _ => true
  | .AssertionError _ => true
  | .KeyError => false

/-- The dict comprehension of `batch_update`, processed left to right,
accumulating `{self._get_id(obj): error_catcher(error_classes, self.insert, obj)}`. -/
def batch_update_go (r : InMemoryRepository T) :
    List T → RepoState T → List (Int × Bool) →
    Except RepoExc (List (Int × Bool)) × RepoState T
  | [], s, acc => (.ok acc, s)
  | obj :: rest, s, acc =>
    match error_catcher error_classes (r.insert obj) s with
    | (.ok b, s1) => batch_update_go r rest s1 (dictSet acc (r.get_id obj) b)
    | (.error e, s1) => (.error e, s1)

/-- Embeds `InMemoryRepository.batch_update`. -/
def InMemoryRepository.batch_update (r : InMemoryRepository T) (objs : List T)
    (s : RepoState T) : Except RepoExc (List (Int × Bool)) × RepoState T :=
  batch_update_go r objs s []

/-- Embeds `InMemoryRepository.remove`: pop the object's id from this class's bucket
only; any `KeyError` (missing bucket or missing id) becomes `NotFound` with
the not-found message. -/
def InMemoryRepository.remove (r : InMemoryRepository T) (obj : T) (s : RepoState T) :
    Except RepoExc Unit × RepoState T :=
  let id_ := r.get_id obj
  match dictGet s.REGISTERS r.klass_qualname with
  | none => (.error (.NotFound (.notFoundMsg id_ r.klass_qualname)), s)
  | some reg =>
    match dictGet reg id_ with
    | none => (.error (.NotFound (.notFoundMsg id_ r.klass_qualname)), s)
    | some _ =>
      (.ok (),
       { s with REGISTERS := dictSet s.REGISTERS r.klass_qualname (dictErase reg id_) })

/-- Embeds `InMemoryRepository.pop`: as `remove` but by id, returning the removed
object. -/
def InMemoryRepository.pop (r : InMemoryRepository T) (i : Int) (s : RepoState T) :
    Except RepoExc T × RepoState T :=
  match dictGet s.REGISTERS r.klass_qualname with
  | none => (.error (.NotFound (.notFoundMsg i r.klass_qualname)), s)
  | some reg =>
    match dictGet reg i with
    | none => (.error (.NotFound (.notFoundMsg i r.klass_qualname)), s)
    | some obj =>
      (.ok obj,
       { s with REGISTERS := dictSet s.REGISTERS r.klass_qualname (dictErase reg i) })

/-! ### Dictionary lemmas -/

variable {K V : Type} [DecidableEq K]

theorem dictGet_dictSet_self (m : List (K × V)) (k : K) (v : V) :
    dictGet (dictSet m k v) k = some v := by
  induction m with
  | nil => simp [dictGet, dictSet]
  | cons p rest ih =>
    rcases p with ⟨k0, v0⟩
    by_cases h : k0 = k <;> simp [dictGet, dictSet, h, ih]

theorem dictGet_dictSet_ne (m : List (K × V)) (k k' : K) (v : V) (h : k' ≠ k) :
    dictGet (dictSet m k v) k' = dictGet m k' := by
  induction m with
  | nil => simp [dictGet, dictSet, Ne.symm h]
  | cons p rest ih =>
    rcases p with ⟨k0, v0⟩
    by_cases h0 : k0 = k
    · subst h0
      simp [dictGet, dictSet, Ne.symm h]
    · simp [dictGet, dictSet, h0, ih]

theorem dictGet_dictSet_isSome (m : List (K × V)) (k q : K) (v : V)
    (h : (dictGet m q).isSome) : (dictGet (dictSet m k v) q).isSome := by
  by_cases hq : q = k
  · subst hq; simp [dictGet_dictSet_self]
  · rwa [dictGet_dictSet_ne m k q v hq]

theorem dictGet_dictErase_ne (m : List (K × V)) (k k' : K) (h : k' ≠ k) :
    dictGet (dictErase m k) k' = dictGet m k' := by
  induction m with
  | nil => simp [dictErase]
  | cons p rest ih =>
    rcases p with ⟨k0, v0⟩
    by_cases h0 : k0 = k
    · subst h0
      simp [dictGet, dictErase, Ne.symm h]
    · simp [dictGet, dictErase, h0, ih]

theorem dictKeys_nil : dictKeys ([] : List (K × V)) = [] := rfl

theorem dictKeys_cons (p : K × V) (rest : List (K × V)) :
    dictKeys (p :: rest) = p.1 :: dictKeys rest := rfl

theorem dictGet_isSome_iff_mem_dictKeys (m : List (K × V)) (k : K) :
    (dictGet m k).isSome ↔ k ∈ dictKeys m := by
  induction m with
  | nil => simp [dictGet, dictKeys_nil]
  | cons p rest ih =>
    rcases p with ⟨k0, v0⟩
    by_cases h0 : k0 = k
    · subst h0; simp [dictGet, dictKeys_cons]
    · simp [dictGet, dictKeys_cons, h0, ih, Ne.symm h0]

theorem dictGet_dictErase_self (m : List (K × V)) (k : K) (hnd : (dictKeys m).Nodup) :
    dictGet (dictErase m k) k = none := by
  induction m with
  | nil => simp [dictErase, dictGet]
  | cons p rest ih =>
    rcases p with ⟨k0, v0⟩
    rw [dictKeys_cons] at hnd
    rcases List.nodup_cons.mp hnd with ⟨hk0, hrest⟩
    by_cases h0 : k0 = k
    · subst h0
      have herase : dictErase ((k0, v0) :: rest) k0 = rest := by simp [dictErase]
      rw [herase]
      cases hv : dictGet rest k0 with
      | none => rfl
      | some v =>
        exact absurd ((dictGet_isSome_iff_mem_dictKeys rest k0).mp (by simp [hv])) hk0
    · simp [dictGet, dictErase, h0, ih hrest]

theorem mem_dictValues_of_dictGet (m : List (K × V)) (k : K) (v : V)
    (h : dictGet m k = some v) : v ∈ dictValues m := by
  induction m with
  | nil => simp [dictGet] at h
  | cons p rest ih =>
    rcases p with ⟨k0, v0⟩
    by_cases h0 : k0 = k
    · simp only [dictGet, if_pos h0, Option.some.injEq] at h
      simp [dictValues, h]
    · simp only [dictGet, if_neg h0] at h
      simp only [dictValues, List.map_cons, List.mem_cons]
      exact Or.inr (by simpa [dictValues] using ih h)

theorem mem_dictKeys_dictSet (m : List (K × V)) (k k' : K) (v : V) :
    k' ∈ dictKeys (dictSet m k v) ↔ k' = k ∨ k' ∈ dictKeys m := by
  induction m with
  | nil => simp [dictSet, dictKeys_cons, dictKeys_nil]
  | cons p rest ih =>
    rcases p with ⟨k0, v0⟩
    by_cases h0 : k0 = k
    · subst h0
      have hset : dictSet ((k0, v0) :: rest) k0 v = (k0, v) :: rest := by simp [dictSet]
      rw [hset, dictKeys_cons, dictKeys_cons]
      simp only [List.mem_cons]
      tauto
    · have hset : dictSet ((k0, v0) :: rest) k v = (k0, v0) :: dictSet rest k v := by
        simp [dictSet, h0]
      rw [hset, dictKeys_cons, dictKeys_cons]
      simp only [List.mem_cons, ih]
      tauto

theorem nodup_dictKeys_dictSet (m : List (K × V)) (k : K) (v : V)
    (h : (dictKeys m).Nodup) : (dictKeys (dictSet m k v)).Nodup := by
  induction m with
  | nil => simp [dictSet, dictKeys_cons, dictKeys_nil]
  | cons p rest ih =>
    rcases p with ⟨k0, v0⟩
    rw [dictKeys_cons] at h
    rcases List.nodup_cons.mp h with ⟨hk0, hrest⟩
    by_cases h0 : k0 = k
    · subst h0
      have hset : dictSet ((k0, v0) :: rest) k0 v = (k0, v) :: rest := by simp [dictSet]
      rw [hset, dictKeys_cons]
      exact List.nodup_cons.mpr ⟨hk0, hrest⟩
    · have hset : dictSet ((k0, v0) :: rest) k v = (k0, v0) :: dictSet rest k v := by
        simp [dictSet, h0]
      rw [hset, dictKeys_cons]
      refine List.nodup_cons.mpr ⟨?_, ih hrest⟩
      intro hmem
      rcases (mem_dictKeys_dictSet rest k k0 v).mp hmem with h1 | h1
      · exact h0 h1
      · exact hk0 h1

theorem dictSet_dictSet_same (m : List (K × V)) (k : K) (v v' : V) :
    dictSet (dictSet m k v) k v' = dictSet m k v' := by
  induction m with
  | nil => simp [dictSet]
  | cons p rest ih =>
    rcases p with ⟨k0, v0⟩
    by_cases h0 : k0 = k <;> simp [dictSet, h0, ih]

/-! ### Fan-out lemmas -/

theorem fan_out_SUPER (id_ : Int) (obj : T) (qs : List String) (s : RepoState T) :
    (fan_out id_ obj qs s).2.SUPER_KLASSES_WITH_REPO = s.SUPER_KLASSES_WITH_REPO := by
  induction qs generalizing s with
  | nil => rfl
  | cons q rest ih =>
    simp only [fan_out]
    cases hb : dictGet s.REGISTERS q with
    | none => rfl
    | some reg =>
      by_cases hid : (dictGet reg id_).isSome
      · simp [hid]
      · simp only [hid, if_false, Bool.false_eq_true]
        exact ih _

theorem fan_out_bucket_isSome (id_ : Int) (obj : T) (qs : List String) (s : RepoState T)
    (q : String) (h : (dictGet s.REGISTERS q).isSome) :
    (dictGet (fan_out id_ obj qs s).2.REGISTERS q).isSome := by
  induction qs generalizing s with
  | nil => exact h
  | cons q0 rest ih =>
    simp only [fan_out]
    cases hb : dictGet s.REGISTERS q0 with
    | none => exact h
    | some reg =>
      by_cases hid : (dictGet reg id_).isSome
      · simp only [hid, if_true]
        exact h
      · simp only [hid, if_false, Bool.false_eq_true]
        exact ih _ (dictGet_dictSet_isSome _ _ _ _ h)

theorem fan_out_regLookup_isSome (id_ : Int) (obj : T) (qs : List String)
    (s : RepoState T) (q : String) (i : Int) (h : (regLookup s q i).isSome) :
    (regLookup (fan_out id_ obj qs s).2 q i).isSome := by
  induction qs generalizing s with
  | nil => exact h
  | cons q0 rest ih =>
    simp only [fan_out]
    cases hb : dictGet s.REGISTERS q0 with
    | none => exact h
    | some reg =>
      by_cases hid : (dictGet reg id_).isSome
      · simp only [hid, if_true]
        exact h
      · simp only [hid, if_false, Bool.false_eq_true]
        refine ih _ ?_
        unfold regLookup at h ⊢
        by_cases hq : q = q0
        · subst hq
          simp only [dictGet_dictSet_self, Option.bind]
          rw [hb] at h
          simp only [Option.bind] at h
          exact dictGet_dictSet_isSome _ _ _ _ h
        · rw [dictGet_dictSet_ne _ _ _ _ hq]
          exact h

theorem fan_out_ok_preserve (id_ : Int) (obj : T) (qs : List String) (s : RepoState T)
    (b : Bool) (s' : RepoState T) (hok : fan_out id_ obj qs s = (.ok b, s'))
    (q : String) (h : regLookup s q id_ = some obj) : regLookup s' q id_ = some obj := by
  induction qs generalizing s with
  | nil =>
    simp only [fan_out, Prod.mk.injEq] at hok
    rw [← hok.2]
    exact h
  | cons q0 rest ih =>
    simp only [fan_out] at hok
    cases hb : dictGet s.REGISTERS q0 with
    | none => rw [hb] at hok; simp at hok
    | some reg =>
      rw [hb] at hok
      by_cases hid : (dictGet reg id_).isSome
      · simp [hid] at hok
      · simp only [hid, if_false, Bool.false_eq_true] at hok
        refine ih _ hok ?_
        unfold regLookup at h ⊢
        by_cases hq : q = q0
        · subst hq
          rw [hb] at h
          simp only [Option.bind] at h
          rw [h] at hid
          simp at hid
        · rw [dictGet_dictSet_ne _ _ _ _ hq]
          exact h

theorem fan_out_ok_mem (id_ : Int) (obj : T) (qs : List String) (s : RepoState T)
    (b : Bool) (s' : RepoState T) (hok : fan_out id_ obj qs s = (.ok b, s'))
    (q : String) (hq : q ∈ qs) : regLookup s' q id_ = some obj := by
  induction qs generalizing s with
  | nil => simp at hq
  | cons q0 rest ih =>
    simp only [fan_out] at hok
    cases hb : dictGet s.REGISTERS q0 with
    | none => rw [hb] at hok; simp at hok
    | some reg =>
      rw [hb] at hok
      by_cases hid : (dictGet reg id_).isSome
      · simp [hid] at hok
      · simp only [hid, if_false, Bool.false_eq_true] at hok
        rcases List.mem_cons.mp hq with h0 | h0
        · subst h0
          refine fan_out_ok_preserve _ _ _ _ _ _ hok q ?_
          unfold regLookup
          simp [dictGet_dictSet_self, dictGet_dictSet_self]
        · exact ih _ hok h0

theorem fan_out_error_assert (id_ : Int) (obj : T) (qs : List String) (s : RepoState T)
    (hall : ∀ q ∈ qs, (dictGet s.REGISTERS q).isSome) (e : RepoExc)
    (he : (fan_out id_ obj qs s).1 = .error e) :
    e = .AssertionError "Id conflict in super repos" := by
  induction qs generalizing s with
  | nil => simp [fan_out] at he
  | cons q0 rest ih =>
    simp only [fan_out] at he
    cases hb : dictGet s.REGISTERS q0 with
    | none =>
      exact absurd (by rw [hb]; rfl : (dictGet s.REGISTERS q0).isSome = false)
        (by simp [hall q0 (List.mem_cons_self q0 rest)])
    | some reg =>
      rw [hb] at he
      by_cases hid : (dictGet reg id_).isSome
      · simp only [hid, if_true] at he
        exact (Except.error.inj he).symm
      · simp only [hid, if_false, Bool.false_eq_true] at he
        refine ih _ ?_ he
        intro q hq
        exact dictGet_dictSet_isSome _ _ _ _ (hall q (List.mem_cons_of_mem _ hq))

theorem fan_out_assert_of_present (id_ : Int) (obj : T) (qs : List String)
    (s : RepoState T) (hall : ∀ q ∈ qs, (dictGet s.REGISTERS q).isSome)
    (hpres : ∃ q ∈ qs, (regLookup s q id_).isSome) :
    (fan_out id_ obj qs s).1 = .error (.AssertionError "Id conflict in super repos") := by
  induction qs generalizing s with
  | nil => simp at hpres
  | cons q0 rest ih =>
    rcases hpres with ⟨q, hqmem, hq⟩
    simp only [fan_out]
    cases hb : dictGet s.REGISTERS q0 with
    | none =>
      exact absurd (by rw [hb]; rfl : (dictGet s.REGISTERS q0).isSome = false)
        (by simp [hall q0 (List.mem_cons_self q0 rest)])
    | some reg =>
      by_cases hid : (dictGet reg id_).isSome
      · simp [hid]
      · simp only [hid, if_false, Bool.false_eq_true]
        rcases List.mem_cons.mp hqmem with h0 | h0
        · subst h0
          unfold regLookup at hq
          rw [hb] at hq
          simp only [Option.bind] at hq
          exact absurd hq (by simp [hid])
        · refine ih _ ?_ ?_
          · intro q1 hq1
            exact dictGet_dictSet_isSome _ _ _ _ (hall q1 (List.mem_cons_of_mem _ hq1))
          · refine ⟨q, h0, ?_⟩
            unfold regLookup at hq ⊢
            by_cases hqq : q = q0
            · subst hqq
              simp [dictGet_dictSet_self]
            · rw [dictGet_dictSet_ne _ _ _ _ hqq]
              exact hq

theorem fan_out_head_present (id_ : Int) (obj : T) (q0 : String) (rest : List String)
    (s : RepoState T) (h : (dictGet s.REGISTERS q0).isSome) :
    (regLookup (fan_out id_ obj (q0 :: rest) s).2 q0 id_).isSome := by
  simp only [fan_out]
  cases hb : dictGet s.REGISTERS q0 with
  | none => rw [hb] at h; simp at h
  | some reg =>
    by_cases hid : (dictGet reg id_).isSome
    · simp only [hid, if_true]
      unfold regLookup
      rw [hb]
      simpa using hid
    · simp only [hid, if_false, Bool.false_eq_true]
      refine fan_out_regLookup_isSome _ _ _ _ _ _ ?_
      unfold regLookup
      simp [dictGet_dictSet_self]

/-! ### Insert lemmas -/

theorem defaultdict_read_fst (m : List (String × List String)) (k : String) :
    (defaultdict_read m k).1 = (dictGet m k).getD [] := by
  cases h : dictGet m k <;> simp [defaultdict_read, h]

theorem defaultdict_read_getD (m : List (String × List String)) (k q : String) :
    (dictGet (defaultdict_read m k).2 q).getD [] = (dictGet m q).getD [] := by
  cases h : dictGet m k with
  | some l => simp [defaultdict_read, h]
  | none =>
    simp only [defaultdict_read, h]
    by_cases hq : q = k
    · subst hq
      rw [dictGet_dictSet_self, h]
      rfl
    · rw [dictGet_dictSet_ne _ _ _ _ hq]

theorem insert_no_bucket (r : InMemoryRepository T) (obj : T) (s : RepoState T)
    (h : dictGet s.REGISTERS r.klass_qualname = none) :
    r.insert obj s = (.error (.NotFound (.noRepositoryMsg r.klass_qualname)), s) := by
  simp [InMemoryRepository.insert, h]

theorem insert_with_bucket (r : InMemoryRepository T) (obj : T) (s : RepoState T)
    (reg : List (Int × T)) (h : dictGet s.REGISTERS r.klass_qualname = some reg) :
    r.insert obj s =
      fan_out (r.get_id obj) obj
        ((dictGet s.SUPER_KLASSES_WITH_REPO r.klass_qualname).getD [])
        { REGISTERS := dictSet s.REGISTERS r.klass_qualname (dictSet reg (r.get_id obj) obj),
          SUPER_KLASSES_WITH_REPO :=
            (defaultdict_read s.SUPER_KLASSES_WITH_REPO r.klass_qualname).2 } := by
  simp only [InMemoryRepository.insert, h]
  rw [defaultdict_read_fst]

theorem insert_SUPER_getD (r : InMemoryRepository T) (obj : T) (s : RepoState T)
    (q : String) :
    (dictGet (r.insert obj s).2.SUPER_KLASSES_WITH_REPO q).getD [] =
      (dictGet s.SUPER_KLASSES_WITH_REPO q).getD [] := by
  cases hb : dictGet s.REGISTERS r.klass_qualname with
  | none => rw [insert_no_bucket r obj s hb]
  | some reg =>
    rw [insert_with_bucket r obj s reg hb, fan_out_SUPER]
    exact defaultdict_read_getD _ _ _

theorem insert_bucket_isSome (r : InMemoryRepository T) (obj : T) (s : RepoState T)
    (q : String) (h : (dictGet s.REGISTERS q).isSome) :
    (dictGet (r.insert obj s).2.REGISTERS q).isSome := by
  cases hb : dictGet s.REGISTERS r.klass_qualname with
  | none => rw [insert_no_bucket r obj s hb]; exact h
  | some reg =>
    rw [insert_with_bucket r obj s reg hb]
    exact fan_out_bucket_isSome _ _ _ _ _ (dictGet_dictSet_isSome _ _ _ _ h)

theorem insert_regLookup_isSome (r : InMemoryRepository T) (obj : T) (s : RepoState T)
    (q : String) (i : Int) (h : (regLookup s q i).isSome) :
    (regLookup (r.insert obj s).2 q i).isSome := by
  cases hb : dictGet s.REGISTERS r.klass_qualname with
  | none => rw [insert_no_bucket r obj s hb]; exact h
  | some reg =>
    rw [insert_with_bucket r obj s reg hb]
    refine fan_out_regLookup_isSome _ _ _ _ _ _ ?_
    unfold regLookup at h ⊢
    by_cases hq : q = r.klass_qualname
    · subst hq
      simp only [dictGet_dictSet_self, Option.bind]
      rw [hb] at h
      simp only [Option.bind] at h
      exact dictGet_dictSet_isSome _ _ _ _ h
    · simp only
      rw [dictGet_dictSet_ne _ _ _ _ hq]
      exact h

theorem insert_error_caught (r : InMemoryRepository T) (obj : T) (s : RepoState T)
    (hH : ∀ q ∈ (dictGet s.SUPER_KLASSES_WITH_REPO r.klass_qualname).getD [],
      (dictGet s.REGISTERS q).isSome)
    (e : RepoExc) (he : (r.insert obj s).1 = .error e) : error_classes e = true := by
  cases hb : dictGet s.REGISTERS r.klass_qualname with
  | none =>
    rw [insert_no_bucket r obj s hb] at he
    cases he
    rfl
  | some reg =>
    rw [insert_with_bucket r obj s reg hb] at he
    have := fan_out_error_assert (r.get_id obj) obj _ _ ?_ e he
    · rw [this]; rfl
    · intro q hq
      exact dictGet_dictSet_isSome _ _ _ _ (hH q hq)

theorem insert_ok_own (r : InMemoryRepository T) (obj : T) (s : RepoState T)
    (b : Bool) (s' : RepoState T) (hok : r.insert obj s = (.ok b, s')) :
    regLookup s' r.klass_qualname (r.get_id obj) = some obj := by
  cases hb : dictGet s.REGISTERS r.klass_qualname with
  | none => rw [insert_no_bucket r obj s hb] at hok; simp at hok
  | some reg =>
    rw [insert_with_bucket r obj s reg hb] at hok
    refine fan_out_ok_preserve _ _ _ _ _ _ hok _ ?_
    unfold regLookup
    simp [dictGet_dictSet_self]

theorem insert_ok_super_mem (r : InMemoryRepository T) (obj : T) (s : RepoState T)
    (b : Bool) (s' : RepoState T) (hok : r.insert obj s = (.ok b, s'))
    (q : String) (hq : q ∈ (dictGet s.SUPER_KLASSES_WITH_REPO r.klass_qualname).getD []) :
    regLookup s' q (r.get_id obj) = some obj := by
  cases hb : dictGet s.REGISTERS r.klass_qualname with
  | none => rw [insert_no_bucket r obj s hb] at hok; simp at hok
  | some reg =>
    rw [insert_with_bucket r obj s reg hb] at hok
    exact fan_out_ok_mem _ _ _ _ _ _ hok q hq

/-! ### Construction and query lemmas -/

theorem construct_fst (klass : Klass) (get_id : T → Int) (s : RepoState T) :
    (construct klass get_id s).1 = ⟨klass.qualname, get_id⟩ := by
  simp only [construct]

theorem construct_super_first (klass : Klass) (get_id : T → Int) (s : RepoState T)
    (hfirst : dictGet s.SUPER_KLASSES_WITH_REPO klass.qualname = none) :
    dictGet (construct klass get_id s).2.SUPER_KLASSES_WITH_REPO klass.qualname =
      some (klass.mro.filter (fun q => (dictGet s.REGISTERS q).isSome)) := by
  simp only [construct, find_super_repos, hfirst, Option.isSome_none, Bool.false_eq_true,
    if_false]
  split
  · exact dictGet_dictSet_self _ _ _
  · exact dictGet_dictSet_self _ _ _

theorem construct_REGISTERS_isSome (klass : Klass) (get_id : T → Int) (s : RepoState T)
    (q : String) (h : (dictGet s.REGISTERS q).isSome) :
    (dictGet (construct klass get_id s).2.REGISTERS q).isSome := by
  simp only [construct]
  split
  · split
    · exact h
    · exact dictGet_dictSet_isSome _ _ _ _ h
  · split
    · exact h
    · exact dictGet_dictSet_isSome _ _ _ _ h

theorem construct_REGISTERS_preserved (klass : Klass) (get_id : T → Int)
    (s : RepoState T) (q : String) (hq : q ≠ klass.qualname) :
    dictGet (construct klass get_id s).2.REGISTERS q = dictGet s.REGISTERS q := by
  simp only [construct]
  split
  · split
    · rfl
    · exact dictGet_dictSet_ne _ _ _ _ hq
  · split
    · rfl
    · exact dictGet_dictSet_ne _ _ _ _ hq

theorem get_of_regLookup (q : String) (gid : T → Int) (s : RepoState T) (i : Int)
    (obj : T) (h : regLookup s q i = some obj) :
    (⟨q, gid⟩ : InMemoryRepository T).get i s = .ok obj := by
  unfold regLookup at h
  cases hb : dictGet s.REGISTERS q with
  | none => rw [hb] at h; simp at h
  | some reg =>
    rw [hb] at h
    simp only [Option.bind] at h
    simp [InMemoryRepository.get, hb, h]

theorem exists_of_regLookup (q : String) (gid : T → Int) (s : RepoState T) (i : Int)
    (obj : T) (h : regLookup s q i = some obj) :
    (⟨q, gid⟩ : InMemoryRepository T).exists_ i s = .ok true := by
  unfold regLookup at h
  cases hb : dictGet s.REGISTERS q with
  | none => rw [hb] at h; simp at h
  | some reg =>
    rw [hb] at h
    simp only [Option.bind] at h
    simp [InMemoryRepository.exists_, hb, h]

theorem all_of_regLookup (q : String) (gid : T → Int) (s : RepoState T) (i : Int)
    (obj : T) (h : regLookup s q i = some obj) :
    ∃ l, (⟨q, gid⟩ : InMemoryRepository T).all s = .ok l ∧ obj ∈ l := by
  unfold regLookup at h
  cases hb : dictGet s.REGISTERS q with
  | none => rw [hb] at h; simp at h
  | some reg =>
    rw [hb] at h
    simp only [Option.bind] at h
    exact ⟨dictValues reg, by simp [InMemoryRepository.all, hb],
      mem_dictValues_of_dictGet _ _ _ h⟩

theorem filter_of_regLookup (q : String) (gid : T → Int) (s : RepoState T) (i : Int)
    (obj : T) (p : T → Bool) (h : regLookup s q i = some obj) (hp : p obj = true) :
    ∃ l, (⟨q, gid⟩ : InMemoryRepository T).filter p s = .ok l ∧ obj ∈ l := by
  unfold regLookup at h
  cases hb : dictGet s.REGISTERS q with
  | none => rw [hb] at h; simp at h
  | some reg =>
    rw [hb] at h
    simp only [Option.bind] at h
    refine ⟨(dictValues reg).filter p, by simp [InMemoryRepository.filter, hb], ?_⟩
    exact List.mem_filter.mpr ⟨mem_dictValues_of_dictGet _ _ _ h, hp⟩

/-! ### Shape lemmas for update, remove and pop -/

theorem update_shape (r : InMemoryRepository T) (obj : T) (s : RepoState T)
    (reg : List (Int × T)) (hb : dictGet s.REGISTERS r.klass_qualname = some reg) :
    r.update obj s =
      (.ok true,
       { s with REGISTERS :=
          dictSet s.REGISTERS r.klass_qualname (dictSet reg (r.get_id obj) obj) }) := by
  simp [InMemoryRepository.update, hb]

theorem update_no_bucket (r : InMemoryRepository T) (obj : T) (s : RepoState T)
    (hb : dictGet s.REGISTERS r.klass_qualname = none) :
    r.update obj s = (.error (.NotFound (.noRepositoryMsg r.klass_qualname)), s) := by
  simp [InMemoryRepository.update, hb]

theorem remove_none_shape (r : InMemoryRepository T) (obj : T) (s : RepoState T)
    (reg : List (Int × T)) (hb : dictGet s.REGISTERS r.klass_qualname = some reg)
    (hg : dictGet reg (r.get_id obj) = none) :
    r.remove obj s =
      (.error (.NotFound (.notFoundMsg (r.get_id obj) r.klass_qualname)), s) := by
  simp [InMemoryRepository.remove, hb, hg]

theorem remove_some_shape (r : InMemoryRepository T) (obj : T) (s : RepoState T)
    (reg : List (Int × T)) (o : T) (hb : dictGet s.REGISTERS r.klass_qualname = some reg)
    (hg : dictGet reg (r.get_id obj) = some o) :
    r.remove obj s =
      (.ok (),
       { s with REGISTERS :=
          dictSet s.REGISTERS r.klass_qualname (dictErase reg (r.get_id obj)) }) := by
  simp [InMemoryRepository.remove, hb, hg]

theorem remove_no_bucket (r : InMemoryRepository T) (obj : T) (s : RepoState T)
    (hb : dictGet s.REGISTERS r.klass_qualname = none) :
    r.remove obj s =
      (.error (.NotFound (.notFoundMsg (r.get_id obj) r.klass_qualname)), s) := by
  simp [InMemoryRepository.remove, hb]

theorem pop_none_shape (r : InMemoryRepository T) (i : Int) (s : RepoState T)
    (reg : List (Int × T)) (hb : dictGet s.REGISTERS r.klass_qualname = some reg)
    (hg : dictGet reg i = none) :
    r.pop i s = (.error (.NotFound (.notFoundMsg i r.klass_qualname)), s) := by
  simp [InMemoryRepository.pop, hb, hg]

theorem pop_some_shape (r : InMemoryRepository T) (i : Int) (s : RepoState T)
    (reg : List (Int × T)) (o : T) (hb : dictGet s.REGISTERS r.klass_qualname = some reg)
    (hg : dictGet reg i = some o) :
    r.pop i s =
      (.ok o,
       { s with REGISTERS := dictSet s.REGISTERS r.klass_qualname (dictErase reg i) }) := by
  simp [InMemoryRepository.pop, hb, hg]

theorem pop_no_bucket (r : InMemoryRepository T) (i : Int) (s : RepoState T)
    (hb : dictGet s.REGISTERS r.klass_qualname = none) :
    r.pop i s = (.error (.NotFound (.notFoundMsg i r.klass_qualname)), s) := by
  simp [InMemoryRepository.pop, hb]

/-! ### Claim theorems -/

/-- Claim C8 (confirmed): `register_klass` is destructive and idempotent in
emptiness.  For every prior registry state, after registering a class the
bucket for its identifier exists and is empty (so registering a non-empty
class discards its contents), and registering twice yields the same state as
registering once. -/
theorem C8_register_destructive_idempotent (s : RepoState T) (k : Klass) :
    dictGet (register_klass s k).REGISTERS k.qualname = some [] ∧
    register_klass (register_klass s k) k = register_klass s k := by
  constructor
  · exact dictGet_dictSet_self _ _ _
  · simp [register_klass, dictSet_dictSet_same]

/-- Claim C9 (confirmed): for a store whose bucket exists, `count` with a
predicate returns exactly the length of `filter` with that predicate (both
evaluated over the current bucket values), and `count` with no predicate
returns the bucket's size. -/
theorem C9_count_filter (r : InMemoryRepository T) (p : T → Bool) (s : RepoState T)
    (reg : List (Int × T)) (h : dictGet s.REGISTERS r.klass_qualname = some reg) :
    r.count (some p) s = .ok ((dictValues reg).filter p).length ∧
    r.filter p s = .ok ((dictValues reg).filter p) ∧
    r.count none s = .ok reg.length := by
  refine ⟨?_, ?_, ?_⟩ <;> simp [InMemoryRepository.count, InMemoryRepository.filter, Except.map, h]

theorem C9_count_filter_witness :
    (⟨"m.C", fun x => x⟩ : InMemoryRepository Int).count
        (some (fun x => decide (x = 6))) ⟨[("m.C", [(1, 5), (2, 6)])], []⟩ = .ok 1 ∧
    (⟨"m.C", fun x => x⟩ : InMemoryRepository Int).filter
        (fun x => decide (x = 6)) ⟨[("m.C", [(1, 5), (2, 6)])], []⟩ = .ok [6] ∧
    (⟨"m.C", fun x => x⟩ : InMemoryRepository Int).count
        none ⟨[("m.C", [(1, 5), (2, 6)])], []⟩ = .ok 2 :=
  C9_count_filter (⟨"m.C", fun x => x⟩ : InMemoryRepository Int)
    (fun x => decide (x = 6)) ⟨[("m.C", [(1, 5), (2, 6)])], []⟩ [(1, 5), (2, 6)] (by rfl)

/-- Claim C3 (code_bug): evaluation of the code at the failing input.  The
claim says the superclass-index entry computed at first store construction
never contains the class's own identifier, regardless of whether
`register_klass` was called first.  But `_find_super_repos` scans
`klass.mro()`, whose first element is the class itself: if `register_klass C`
ran before the first store for `C` was constructed, `C`'s own bucket already
exists, so `C`'s own identifier lands in the index entry, and every subsequent
`insert` through `C`'s store trips the `assert` ("Id conflict in super
repos") against the write `insert` itself just made to `C`'s bucket. -/
theorem C3_self_in_super_index_eval :
    dictGet (construct (⟨"m.C", []⟩ : Klass) (fun x => x)
        (register_klass (⟨[], []⟩ : RepoState Int)
          ⟨"m.C", []⟩)).2.SUPER_KLASSES_WITH_REPO "m.C" = some ["m.C"] ∧
    "m.C" ∉ (⟨"m.C", []⟩ : Klass).ancestors ∧
    ((construct (⟨"m.C", []⟩ : Klass) (fun x => x)
        (register_klass (⟨[], []⟩ : RepoState Int) ⟨"m.C", []⟩)).1.insert 1
      (construct (⟨"m.C", []⟩ : Klass) (fun x => x)
        (register_klass (⟨[], []⟩ : RepoState Int) ⟨"m.C", []⟩)).2).1 =
      .error (.AssertionError "Id conflict in super repos") := by
  refine ⟨by decide, by decide, by rfl⟩

/-- Claim C1 (corrected, counterexample): on a state with no bucket for the
store's class identifier, `get` does not fail with a `NoRepository` kind — it
fails with the `NotFound` exception class (carrying the no-repository
message), and the kind of that failure is `"NotFound"`, not
`"NoRepository"`. -/
theorem C1_no_repository_is_NotFound_counterexample :
    (⟨"m.C", fun x => x⟩ : InMemoryRepository Int).get 1 ⟨[], []⟩ =
      .error (.NotFound (.noRepositoryMsg "m.C")) ∧
    RepoExc.kindName (.NotFound (.noRepositoryMsg "m.C")) = "NotFound" ∧
    "NotFound" ≠ "NoRepository" :=
  ⟨rfl, rfl, by decide⟩

/-- Claim C1 (corrected, amended): the store surfaces exactly one catchable
failure kind, `NotFound`; every operation that addresses a class identifier
with no registry bucket fails with the `NotFound` kind carrying the
no-repository message (`remove` and `pop` carry the not-found message), so the
two failure situations are distinguishable by message only, not by kind. -/
theorem C1_no_bucket_failures_are_NotFound (r : InMemoryRepository T) (i : Int)
    (obj : T) (p : T → Bool) (s : RepoState T)
    (h : dictGet s.REGISTERS r.klass_qualname = none) :
    r.get i s = .error (.NotFound (.noRepositoryMsg r.klass_qualname)) ∧
    r.get_or_none i s = .error (.NotFound (.noRepositoryMsg r.klass_qualname)) ∧
    r.all s = .error (.NotFound (.noRepositoryMsg r.klass_qualname)) ∧
    r.exists_ i s = .error (.NotFound (.noRepositoryMsg r.klass_qualname)) ∧
    r.filter p s = .error (.NotFound (.noRepositoryMsg r.klass_qualname)) ∧
    r.count none s = .error (.NotFound (.noRepositoryMsg r.klass_qualname)) ∧
    r.count (some p) s = .error (.NotFound (.noRepositoryMsg r.klass_qualname)) ∧
    (r.insert obj s).1 = .error (.NotFound (.noRepositoryMsg r.klass_qualname)) ∧
    (r.update obj s).1 = .error (.NotFound (.noRepositoryMsg r.klass_qualname)) ∧
    (r.remove obj s).1 =
      .error (.NotFound (.notFoundMsg (r.get_id obj) r.klass_qualname)) ∧
    (r.pop i s).1 = .error (.NotFound (.notFoundMsg i r.klass_qualname)) ∧
    RepoExc.kindName (.NotFound (.noRepositoryMsg r.klass_qualname)) = "NotFound" := by
  refine ⟨?_, ?_, ?_, ?_, ?_, ?_, ?_, ?_, ?_, ?_, ?_, rfl⟩ <;>
    simp [InMemoryRepository.get, InMemoryRepository.get_or_none, InMemoryRepository.all,
      InMemoryRepository.exists_, InMemoryRepository.filter, InMemoryRepository.count,
      InMemoryRepository.insert, InMemoryRepository.update, InMemoryRepository.remove,
      InMemoryRepository.pop, Except.map, h]

theorem C1_no_bucket_failures_are_NotFound_witness :
    (⟨"m.C", fun x => x⟩ : InMemoryRepository Int).get 1 ⟨[], []⟩ =
      .error (.NotFound (.noRepositoryMsg "m.C")) ∧
    ((⟨"m.C", fun x => x⟩ : InMemoryRepository Int).insert 5 ⟨[], []⟩).1 =
      .error (.NotFound (.noRepositoryMsg "m.C")) ∧
    ((⟨"m.C", fun x => x⟩ : InMemoryRepository Int).pop 1 ⟨[], []⟩).1 =
      .error (.NotFound (.notFoundMsg 1 "m.C")) := by
  have h := C1_no_bucket_failures_are_NotFound
    (⟨"m.C", fun x => x⟩ : InMemoryRepository Int) 1 5 (fun _ => true) ⟨[], []⟩ rfl
  exact ⟨h.1, h.2.2.2.2.2.2.2.1, h.2.2.2.2.2.2.2.2.2.2.1⟩

/-- Claim C5 (confirmed): whenever `insert obj` succeeds, `get` at the
extracted id returns the inserted object and `exists` at that id returns
`true`, on the resulting state. -/
theorem C5_insert_postcondition (r : InMemoryRepository T) (obj : T)
    (s s2 : RepoState T) (b : Bool) (hok : r.insert obj s = (.ok b, s2)) :
    r.get (r.get_id obj) s2 = .ok obj ∧ r.exists_ (r.get_id obj) s2 = .ok true := by
  have h := insert_ok_own r obj s b s2 hok
  exact ⟨get_of_regLookup r.klass_qualname r.get_id s2 _ _ h,
    exists_of_regLookup r.klass_qualname r.get_id s2 _ _ h⟩

theorem C5_insert_postcondition_witness :
    (⟨"m.C", fun x => x⟩ : InMemoryRepository Int).get 5
        ⟨[("m.C", [(5, 5)])], [("m.C", [])]⟩ = .ok 5 ∧
    (⟨"m.C", fun x => x⟩ : InMemoryRepository Int).exists_ 5
        ⟨[("m.C", [(5, 5)])], [("m.C", [])]⟩ = .ok true :=
  C5_insert_postcondition (⟨"m.C", fun x => x⟩ : InMemoryRepository Int) 5
    ⟨[("m.C", [])], []⟩ ⟨[("m.C", [(5, 5)])], [("m.C", [])]⟩ true (by rfl)

/-- Claim C6 (confirmed): `update`, `remove` and `pop` are framed to the entry
for the addressed id in this class's own bucket: every other class's bucket is
left unchanged, every other entry of the own bucket is left unchanged, a
successful `update` writes exactly the entry for the object's extracted id,
and a successful `remove`/`pop` deletes exactly that entry. -/
theorem C6_frame_non_insert (r : InMemoryRepository T) (obj : T) (i : Int)
    (s : RepoState T) :
    (∀ q, q ≠ r.klass_qualname →
      dictGet (r.update obj s).2.REGISTERS q = dictGet s.REGISTERS q ∧
      dictGet (r.remove obj s).2.REGISTERS q = dictGet s.REGISTERS q ∧
      dictGet (r.pop i s).2.REGISTERS q = dictGet s.REGISTERS q) ∧
    (∀ j, j ≠ r.get_id obj →
      regLookup (r.update obj s).2 r.klass_qualname j = regLookup s r.klass_qualname j ∧
      regLookup (r.remove obj s).2 r.klass_qualname j = regLookup s r.klass_qualname j) ∧
    (∀ j, j ≠ i →
      regLookup (r.pop i s).2 r.klass_qualname j = regLookup s r.klass_qualname j) ∧
    ((r.update obj s).1 = .ok true →
      regLookup (r.update obj s).2 r.klass_qualname (r.get_id obj) = some obj) ∧
    (∀ reg, dictGet s.REGISTERS r.klass_qualname = some reg → (dictKeys reg).Nodup →
      regLookup (r.remove obj s).2 r.klass_qualname (r.get_id obj) = none ∧
      regLookup (r.pop i s).2 r.klass_qualname i = none) := by
  cases hb : dictGet s.REGISTERS r.klass_qualname with
  | none =>
    refine ⟨fun q hq => ?_, fun j hj => ?_, fun j hj => ?_, ?_, fun reg hreg => ?_⟩
    · rw [update_no_bucket r obj s hb, remove_no_bucket r obj s hb, pop_no_bucket r i s hb]
      exact ⟨rfl, rfl, rfl⟩
    · rw [update_no_bucket r obj s hb, remove_no_bucket r obj s hb]
      exact ⟨rfl, rfl⟩
    · rw [pop_no_bucket r i s hb]
    · intro hup
      rw [update_no_bucket r obj s hb] at hup
      cases hup
    · simp at hreg
  | some reg0 =>
    refine ⟨fun q hq => ⟨?_, ?_, ?_⟩, fun j hj => ⟨?_, ?_⟩, fun j hj => ?_, ?_,
      fun reg hreg hnd => ?_⟩
    · rw [update_shape r obj s reg0 hb]
      exact dictGet_dictSet_ne _ _ _ _ hq
    · cases hg : dictGet reg0 (r.get_id obj) with
      | none => rw [remove_none_shape r obj s reg0 hb hg]
      | some o =>
        rw [remove_some_shape r obj s reg0 o hb hg]
        exact dictGet_dictSet_ne _ _ _ _ hq
    · cases hg : dictGet reg0 i with
      | none => rw [pop_none_shape r i s reg0 hb hg]
      | some o =>
        rw [pop_some_shape r i s reg0 o hb hg]
        exact dictGet_dictSet_ne _ _ _ _ hq
    · unfold regLookup
      rw [update_shape r obj s reg0 hb]
      simp only [dictGet_dictSet_self, hb, Option.bind]
      exact dictGet_dictSet_ne _ _ _ _ hj
    · unfold regLookup
      cases hg : dictGet reg0 (r.get_id obj) with
      | none => rw [remove_none_shape r obj s reg0 hb hg]
      | some o =>
        rw [remove_some_shape r obj s reg0 o hb hg]
        simp only [dictGet_dictSet_self, hb, Option.bind]
        exact dictGet_dictErase_ne _ _ _ hj
    · unfold regLookup
      cases hg : dictGet reg0 i with
      | none => rw [pop_none_shape r i s reg0 hb hg]
      | some o =>
        rw [pop_some_shape r i s reg0 o hb hg]
        simp only [dictGet_dictSet_self, hb, Option.bind]
        exact dictGet_dictErase_ne _ _ _ hj
    · intro _
      unfold regLookup
      rw [update_shape r obj s reg0 hb]
      simp only [dictGet_dictSet_self, Option.bind]
    · have hnd0 : (dictKeys reg0).Nodup := by
        rw [Option.some.inj hreg]
        exact hnd
      constructor
      · unfold regLookup
        cases hg : dictGet reg0 (r.get_id obj) with
        | none =>
          rw [remove_none_shape r obj s reg0 hb hg]
          simp [hb, hg]
        | some o =>
          rw [remove_some_shape r obj s reg0 o hb hg]
          simp only [dictGet_dictSet_self, Option.bind]
          exact dictGet_dictErase_self _ _ hnd0
      · unfold regLookup
        cases hg : dictGet reg0 i with
        | none =>
          rw [pop_none_shape r i s reg0 hb hg]
          simp [hb, hg]
        | some o =>
          rw [pop_some_shape r i s reg0 o hb hg]
          simp only [dictGet_dictSet_self, Option.bind]
          exact dictGet_dictErase_self _ _ hnd0

theorem C6_frame_non_insert_witness :
    dictGet ((⟨"m.C", fun x => x⟩ : InMemoryRepository Int).update 5
        ⟨[("m.A", [(5, 9)]), ("m.C", [(5, 5), (6, 6)])], []⟩).2.REGISTERS "m.A" =
      dictGet (⟨[("m.A", [(5, 9)]), ("m.C", [(5, 5), (6, 6)])], []⟩ :
        RepoState Int).REGISTERS "m.A" ∧
    regLookup ((⟨"m.C", fun x => x⟩ : InMemoryRepository Int).remove 5
        ⟨[("m.A", [(5, 9)]), ("m.C", [(5, 5), (6, 6)])], []⟩).2 "m.C" 6 =
      regLookup (⟨[("m.A", [(5, 9)]), ("m.C", [(5, 5), (6, 6)])], []⟩ :
        RepoState Int) "m.C" 6 ∧
    regLookup ((⟨"m.C", fun x => x⟩ : InMemoryRepository Int).remove 5
        ⟨[("m.A", [(5, 9)]), ("m.C", [(5, 5), (6, 6)])], []⟩).2 "m.C" 5 = none := by
  have h := C6_frame_non_insert (⟨"m.C", fun x => x⟩ : InMemoryRepository Int) 5 7
    ⟨[("m.A", [(5, 9)]), ("m.C", [(5, 5), (6, 6)])], []⟩
  exact ⟨(h.1 "m.A" (by decide)).1, (h.2.1 6 (by decide)).2,
    (h.2.2.2.2 [(5, 5), (6, 6)] (by rfl) (by decide)).1⟩

/-- One step of `batch_update` on a single object, as an equation: the effect
applied per item is `insert` wrapped in `error_catcher`. -/
theorem batch_update_single (r : InMemoryRepository T) (o : T) (t : RepoState T) :
    r.batch_update [o] t =
      match error_catcher error_classes (r.insert o) t with
      | (.ok b, t1) => (.ok [(r.get_id o, b)], t1)
      | (.error e, t1) => (.error e, t1) := by
  rcases hec : error_catcher error_classes (r.insert o) t with ⟨res, t1⟩
  cases res <;>
    simp [InMemoryRepository.batch_update, batch_update_go, hec, dictSet]

/-- Claim C2 (corrected, counterexample): an identity-conflict assertion
failure raised inside `insert`'s fan-out does not propagate out of
`batch_update`: on a state where the ancestor bucket `m.A` already holds id 1,
`insert` itself raises the `AssertionError`, yet `batch_update` of that one
object returns a success result whose mapping records the id as failed. -/
theorem C2_assert_aborts_batch_counterexample :
    ((⟨"m.D", fun x => x⟩ : InMemoryRepository Int).insert 1
        ⟨[("m.A", [(1, 9)]), ("m.D", [])], [("m.D", ["m.A"])]⟩).1 =
      .error (.AssertionError "Id conflict in super repos") ∧
    ((⟨"m.D", fun x => x⟩ : InMemoryRepository Int).batch_update [1]
        ⟨[("m.A", [(1, 9)]), ("m.D", [])], [("m.D", ["m.A"])]⟩).1 =
      .ok [(1, false)] :=
  ⟨by rfl, by rfl⟩

/-- Claim C2 (corrected, amended): `batch_update`'s per-item error catcher
lists `AssertionError` among its caught classes, so an identity-conflict
assertion raised by an object's insert is converted into a `false` entry for
that object's id and the batch continues with the remaining objects. -/
theorem C2_assert_caught_per_item (r : InMemoryRepository T) (o : T) (rest : List T)
    (s : RepoState T) (msg : String)
    (h : (r.insert o s).1 = .error (.AssertionError msg)) :
    r.batch_update (o :: rest) s =
      batch_update_go r rest (r.insert o s).2 [(r.get_id o, false)] := by
  rcases hrs : r.insert o s with ⟨res, s1⟩
  rw [hrs] at h
  simp only at h
  subst h
  have hec : error_catcher error_classes (r.insert o) s = (.ok false, s1) := by
    simp [error_catcher, hrs, error_classes]
  simp [InMemoryRepository.batch_update, batch_update_go, hec, dictSet]

theorem C2_assert_caught_per_item_witness :
    (⟨"m.D", fun x => x⟩ : InMemoryRepository Int).batch_update [1]
        ⟨[("m.A", [(1, 9)]), ("m.D", [])], [("m.D", ["m.A"])]⟩ =
      batch_update_go (⟨"m.D", fun x => x⟩ : InMemoryRepository Int) []
        ((⟨"m.D", fun x => x⟩ : InMemoryRepository Int).insert 1
          ⟨[("m.A", [(1, 9)]), ("m.D", [])], [("m.D", ["m.A"])]⟩).2 [(1, false)] :=
  C2_assert_caught_per_item (⟨"m.D", fun x => x⟩ : InMemoryRepository Int) 1 []
    ⟨[("m.A", [(1, 9)]), ("m.D", [])], [("m.D", ["m.A"])]⟩
    "Id conflict in super repos" (by rfl)

/-- If the memoized super list is non-empty, all its buckets exist, and the
object's id is present in one of them, `insert` trips the identity-conflict
assertion. -/
theorem insert_asserts_of_present (r : InMemoryRepository T) (obj : T) (s : RepoState T)
    (q1 : String) (rest : List String)
    (hL : (dictGet s.SUPER_KLASSES_WITH_REPO r.klass_qualname).getD [] = q1 :: rest)
    (hown : (dictGet s.REGISTERS r.klass_qualname).isSome)
    (hall : ∀ q ∈ q1 :: rest, (dictGet s.REGISTERS q).isSome)
    (hpres : ∃ q ∈ q1 :: rest, (regLookup s q (r.get_id obj)).isSome) :
    (r.insert obj s).1 = .error (.AssertionError "Id conflict in super repos") := by
  obtain ⟨reg, hb⟩ := Option.isSome_iff_exists.mp hown
  rw [insert_with_bucket r obj s reg hb, hL]
  apply fan_out_assert_of_present
  · intro q hq
    exact dictGet_dictSet_isSome _ _ _ _ (hall q hq)
  · obtain ⟨q, hqmem, hq⟩ := hpres
    refine ⟨q, hqmem, ?_⟩
    unfold regLookup at hq ⊢
    by_cases hqq : q = r.klass_qualname
    · subst hqq
      simp [dictGet_dictSet_self]
    · simp only
      rw [dictGet_dictSet_ne _ _ _ _ hqq]
      exact hq

/-- After any `insert` on a store whose super list has head `q1` with an
existing bucket, the inserted id is present in `q1`'s bucket. -/
theorem insert_head_present (r : InMemoryRepository T) (obj : T) (s : RepoState T)
    (q1 : String) (rest : List String) (reg : List (Int × T))
    (hb : dictGet s.REGISTERS r.klass_qualname = some reg)
    (hL : (dictGet s.SUPER_KLASSES_WITH_REPO r.klass_qualname).getD [] = q1 :: rest)
    (hq1 : (dictGet s.REGISTERS q1).isSome) :
    (regLookup (r.insert obj s).2 q1 (r.get_id obj)).isSome := by
  rw [insert_with_bucket r obj s reg hb, hL]
  apply fan_out_head_present
  exact dictGet_dictSet_isSome _ _ _ _ hq1

/-- Claim C10 (confirmed): on a store whose memoized superclass-index entry is
non-empty (all of whose listed buckets exist, as every reachable state has),
the identity-conflict assertion fires whenever the extracted id is merely
present in a listed bucket — regardless of which object holds it — and in
particular inserting the same object twice in a row always aborts the second
call with the assertion failure. -/
theorem C10_reinsert_always_asserts (r : InMemoryRepository T) (obj : T)
    (s : RepoState T) (q1 : String) (rest : List String)
    (hL : (dictGet s.SUPER_KLASSES_WITH_REPO r.klass_qualname).getD [] = q1 :: rest)
    (hown : (dictGet s.REGISTERS r.klass_qualname).isSome)
    (hall : ∀ q ∈ q1 :: rest, (dictGet s.REGISTERS q).isSome) :
    (∀ q ∈ q1 :: rest, (regLookup s q (r.get_id obj)).isSome →
      (r.insert obj s).1 = .error (.AssertionError "Id conflict in super repos")) ∧
    (r.insert obj (r.insert obj s).2).1 =
      .error (.AssertionError "Id conflict in super repos") := by
  constructor
  · intro q hq hp
    exact insert_asserts_of_present r obj s q1 rest hL hown hall ⟨q, hq, hp⟩
  · obtain ⟨reg, hb⟩ := Option.isSome_iff_exists.mp hown
    have hL1 : (dictGet (r.insert obj s).2.SUPER_KLASSES_WITH_REPO
        r.klass_qualname).getD [] = q1 :: rest := by
      rw [insert_SUPER_getD]
      exact hL
    have hown1 := insert_bucket_isSome r obj s r.klass_qualname hown
    have hall1 : ∀ q ∈ q1 :: rest, (dictGet (r.insert obj s).2.REGISTERS q).isSome :=
      fun q hq => insert_bucket_isSome r obj s q (hall q hq)
    have hpres1 : (regLookup (r.insert obj s).2 q1 (r.get_id obj)).isSome :=
      insert_head_present r obj s q1 rest reg hb hL (hall q1 (List.mem_cons_self q1 rest))
    exact insert_asserts_of_present r obj ((r.insert obj s).2) q1 rest hL1 hown1 hall1
      ⟨q1, List.mem_cons_self q1 rest, hpres1⟩

theorem C10_reinsert_always_asserts_witness :
    ((⟨"m.D", fun x => x⟩ : InMemoryRepository Int).insert 3
        ⟨[("m.A", [(3, 3)]), ("m.D", [])], [("m.D", ["m.A"])]⟩).1 =
      .error (.AssertionError "Id conflict in super repos") ∧
    ((⟨"m.D", fun x => x⟩ : InMemoryRepository Int).insert 3
        (((⟨"m.D", fun x => x⟩ : InMemoryRepository Int).insert 3
          ⟨[("m.A", []), ("m.D", [])], [("m.D", ["m.A"])]⟩).2)).1 =
      .error (.AssertionError "Id conflict in super repos") :=
  ⟨(C10_reinsert_always_asserts (⟨"m.D", fun x => x⟩ : InMemoryRepository Int) 3
      ⟨[("m.A", [(3, 3)]), ("m.D", [])], [("m.D", ["m.A"])]⟩ "m.A" [] (by rfl)
      (by decide) (by decide)).1 "m.A" (by decide) (by decide),
   (C10_reinsert_always_asserts (⟨"m.D", fun x => x⟩ : InMemoryRepository Int) 3
      ⟨[("m.A", []), ("m.D", [])], [("m.D", ["m.A"])]⟩ "m.A" [] (by rfl)
      (by decide) (by decide)).2⟩

/-- Claim C4 (confirmed): if ancestor `A`'s bucket exists before the first
store for subclass `S` is constructed, then a successful insert through `S`'s
store makes the object retrievable through `A`'s store: `get` at the extracted
id returns it, `exists` is true, it appears in `all`, and in `filter p` for
any predicate `p` it satisfies. -/
theorem C4_insert_propagates_to_ancestor (aQn : String) (Sklass : Klass)
    (gid gidA : T → Int) (s0 : RepoState T) (obj : T) (b : Bool) (s2 : RepoState T)
    (p : T → Bool) (hanc : aQn ∈ Sklass.ancestors)
    (hA : (dictGet s0.REGISTERS aQn).isSome)
    (hfirst : dictGet s0.SUPER_KLASSES_WITH_REPO Sklass.qualname = none)
    (hins : (construct Sklass gid s0).1.insert obj (construct Sklass gid s0).2 =
      (.ok b, s2)) :
    (⟨aQn, gidA⟩ : InMemoryRepository T).get (gid obj) s2 = .ok obj ∧
    (⟨aQn, gidA⟩ : InMemoryRepository T).exists_ (gid obj) s2 = .ok true ∧
    (∃ l, (⟨aQn, gidA⟩ : InMemoryRepository T).all s2 = .ok l ∧ obj ∈ l) ∧
    (p obj = true →
      ∃ l, (⟨aQn, gidA⟩ : InMemoryRepository T).filter p s2 = .ok l ∧ obj ∈ l) := by
  have hfst : (construct Sklass gid s0).1 = ⟨Sklass.qualname, gid⟩ :=
    construct_fst Sklass gid s0
  have hsuper : dictGet (construct Sklass gid s0).2.SUPER_KLASSES_WITH_REPO
      Sklass.qualname =
      some (Sklass.mro.filter (fun q => (dictGet s0.REGISTERS q).isSome)) :=
    construct_super_first Sklass gid s0 hfirst
  have hmem : aQn ∈ (dictGet (construct Sklass gid s0).2.SUPER_KLASSES_WITH_REPO
      ((construct Sklass gid s0).1.klass_qualname)).getD [] := by
    rw [hfst]
    simp only
    rw [hsuper]
    simp only [Option.getD_some]
    refine List.mem_filter.mpr ⟨?_, hA⟩
    simp only [Klass.mro, List.mem_cons]
    exact Or.inr hanc
  have hreg : regLookup s2 aQn ((construct Sklass gid s0).1.get_id obj) = some obj :=
    insert_ok_super_mem ((construct Sklass gid s0).1) obj ((construct Sklass gid s0).2)
      b s2 hins aQn hmem
  have hreg2 : regLookup s2 aQn (gid obj) = some obj := by
    rw [hfst] at hreg
    exact hreg
  exact ⟨get_of_regLookup aQn gidA s2 _ _ hreg2,
    exists_of_regLookup aQn gidA s2 _ _ hreg2,
    all_of_regLookup aQn gidA s2 _ _ hreg2,
    fun hp => filter_of_regLookup aQn gidA s2 _ _ p hreg2 hp⟩

theorem C4_insert_propagates_to_ancestor_witness :
    (⟨"m.A", fun x => x⟩ : InMemoryRepository Int).get 7
        ⟨[("m.A", [(7, 7)]), ("m.S", [(7, 7)])], [("m.S", ["m.A"])]⟩ = .ok 7 ∧
    (⟨"m.A", fun x => x⟩ : InMemoryRepository Int).exists_ 7
        ⟨[("m.A", [(7, 7)]), ("m.S", [(7, 7)])], [("m.S", ["m.A"])]⟩ = .ok true ∧
    (∃ l, (⟨"m.A", fun x => x⟩ : InMemoryRepository Int).all
        ⟨[("m.A", [(7, 7)]), ("m.S", [(7, 7)])], [("m.S", ["m.A"])]⟩ = .ok l ∧ 7 ∈ l) ∧
    ((fun x => decide (x = 7)) 7 = true →
      ∃ l, (⟨"m.A", fun x => x⟩ : InMemoryRepository Int).filter
        (fun x => decide (x = 7))
        ⟨[("m.A", [(7, 7)]), ("m.S", [(7, 7)])], [("m.S", ["m.A"])]⟩ = .ok l ∧ 7 ∈ l) :=
  C4_insert_propagates_to_ancestor "m.A" ⟨"m.S", ["m.A"]⟩ (fun x => x) (fun x => x)
    ⟨[("m.A", [])], []⟩ 7 true
    ⟨[("m.A", [(7, 7)]), ("m.S", [(7, 7)])], [("m.S", ["m.A"])]⟩
    (fun x => decide (x = 7)) (by decide) (by decide) (by rfl) (by rfl)

/-- The operation `insert` preserves the reachable-state invariant that every bucket named
in the store's memoized super list exists. -/
theorem batch_inv_preserved (r : InMemoryRepository T) (obj : T) (s : RepoState T)
    (hH : ∀ q ∈ (dictGet s.SUPER_KLASSES_WITH_REPO r.klass_qualname).getD [],
      (dictGet s.REGISTERS q).isSome) :
    ∀ q ∈ (dictGet (r.insert obj s).2.SUPER_KLASSES_WITH_REPO r.klass_qualname).getD [],
      (dictGet (r.insert obj s).2.REGISTERS q).isSome := by
  intro q hq
  rw [insert_SUPER_getD] at hq
  exact insert_bucket_isSome r obj s q (hH q hq)

/-- The batch loop never aborts when every bucket of the super list exists:
each per-item failure is caught, and the accumulated mapping's keys are the
accumulator's keys plus one entry per input object's id, without
duplicates. -/
theorem batch_go_ok (r : InMemoryRepository T) (objs : List T) :
    ∀ (s : RepoState T) (acc : List (Int × Bool)),
    (∀ q ∈ (dictGet s.SUPER_KLASSES_WITH_REPO r.klass_qualname).getD [],
      (dictGet s.REGISTERS q).isSome) →
    ∃ m s', batch_update_go r objs s acc = (.ok m, s') ∧
      (∀ i, i ∈ dictKeys m ↔ i ∈ dictKeys acc ∨ i ∈ objs.map r.get_id) ∧
      ((dictKeys acc).Nodup → (dictKeys m).Nodup) := by
  induction objs with
  | nil =>
    intro s acc hH
    exact ⟨acc, s, rfl, fun i => by simp, fun h => h⟩
  | cons obj rest ih =>
    intro s acc hH
    rcases hrs : r.insert obj s with ⟨res, s1⟩
    have hH1 : ∀ q ∈ (dictGet s1.SUPER_KLASSES_WITH_REPO r.klass_qualname).getD [],
        (dictGet s1.REGISTERS q).isSome := by
      have hpre := batch_inv_preserved r obj s hH
      rw [hrs] at hpre
      exact hpre
    cases res with
    | ok b =>
      have hec : error_catcher error_classes (r.insert obj) s = (.ok b, s1) := by
        simp [error_catcher, hrs]
      obtain ⟨m, s', hgo, hkeys, hnd⟩ := ih s1 (dictSet acc (r.get_id obj) b) hH1
      refine ⟨m, s', ?_, ?_, ?_⟩
      · simp [batch_update_go, hec, hgo]
      · intro i
        rw [hkeys i, mem_dictKeys_dictSet]
        simp only [List.map_cons, List.mem_cons]
        tauto
      · intro hacc
        exact hnd (nodup_dictKeys_dictSet _ _ _ hacc)
    | error e =>
      have hcaught : error_classes e = true :=
        insert_error_caught r obj s hH e (by rw [hrs])
      have hec : error_catcher error_classes (r.insert obj) s = (.ok false, s1) := by
        simp [error_catcher, hrs, hcaught]
      obtain ⟨m, s', hgo, hkeys, hnd⟩ := ih s1 (dictSet acc (r.get_id obj) false) hH1
      refine ⟨m, s', ?_, ?_, ?_⟩
      · simp [batch_update_go, hec, hgo]
      · intro i
        rw [hkeys i, mem_dictKeys_dictSet]
        simp only [List.map_cons, List.mem_cons]
        tauto
      · intro hacc
        exact hnd (nodup_dictKeys_dictSet _ _ _ hacc)

/-- Claim C7 (confirmed): on any state whose memoized super-list buckets all
exist (as in every reachable state), `batch_update` applies the effect of
`insert` — wrapped in the per-item error catcher — to each object, never
aborts, and returns a mapping with exactly one entry per input object's id;
one object's failure is recorded as that object's `false` entry and does not
abort or skip the processing of the others. -/
theorem C7_batch_update_per_item (r : InMemoryRepository T) (objs : List T)
    (s : RepoState T)
    (hH : ∀ q ∈ (dictGet s.SUPER_KLASSES_WITH_REPO r.klass_qualname).getD [],
      (dictGet s.REGISTERS q).isSome) :
    (∃ m s', r.batch_update objs s = (.ok m, s') ∧ (dictKeys m).Nodup ∧
      (∀ i, i ∈ dictKeys m ↔ i ∈ objs.map r.get_id)) ∧
    (∀ (o : T) (t : RepoState T), r.batch_update [o] t =
      match error_catcher error_classes (r.insert o) t with
      | (.ok b2, t1) => (.ok [(r.get_id o, b2)], t1)
      | (.error e, t1) => (.error e, t1)) := by
  constructor
  · obtain ⟨m, s', hgo, hkeys, hnd⟩ := batch_go_ok r objs s [] hH
    refine ⟨m, s', hgo, hnd List.Pairwise.nil, fun i => ?_⟩
    rw [hkeys i]
    simp [dictKeys_nil]
  · exact batch_update_single r

theorem C7_batch_update_per_item_witness :
    ∃ m s', (⟨"m.D", fun x => x⟩ : InMemoryRepository Int).batch_update [1, 2]
        ⟨[("m.A", [(2, 9)]), ("m.D", [])], [("m.D", ["m.A"])]⟩ = (.ok m, s') ∧
      (dictKeys m).Nodup ∧
      (∀ i, i ∈ dictKeys m ↔
        i ∈ [1, 2].map (⟨"m.D", fun x => x⟩ : InMemoryRepository Int).get_id) :=
  (C7_batch_update_per_item (⟨"m.D", fun x => x⟩ : InMemoryRepository Int) [1, 2]
    ⟨[("m.A", [(2, 9)]), ("m.D", [])], [("m.D", ["m.A"])]⟩ (by decide)).1

end DharmaInMemory
